import Mathlib

/-!
Verification of filesystem.h (mathewmariani/filesystem), a tiny
search-path / write-directory filesystem layer.

Shallow embedding conventions:
- Paths, template strings and file contents are Lean Strings (one Char per
  byte; all inputs of interest are ASCII).
- The backing OS filesystem is an explicit state (OS) holding regular
  files (an association list from path to contents, first binding wins)
  and directories (a list of paths).  The OS primitives stat, fopen,
  fwrite, mkdir and remove are modelled as pure functions on that state.
  A permissive model is used for fopen in write/append mode (it succeeds
  whenever the target is a nonempty path that is not a directory);
  mkdir requires the parent directory to exist and fails on an existing
  path, as POSIX mkdir does.  Modification times and symbolic links are
  not modelled, since no claim concerns them.
- Each library operation becomes a pure function from the OS state and
  the configuration (FSState: the search path and write directory
  strings) to a result, a new OS state, and a trace of the OS calls it
  performed (Ev).  Handle-acquiring calls appear in the trace as openE
  and closeE events, so descriptor hygiene is observable.
- Allocation by FS_MALLOC in fs_read is modelled by a Boolean oracle
  argument allocOk: true means the allocation succeeds.
-/

namespace FsLib

instance {ε α : Type} [DecidableEq ε] [DecidableEq α] : DecidableEq (Except ε α) := fun a b =>
  match a, b with
  | .ok x, .ok y =>
    if h : x = y then isTrue (by rw [h]) else isFalse (fun he => h (Except.ok.inj he))
  | .ok _, .error _ => isFalse (fun he => Except.noConfusion he)
  | .error _, .ok _ => isFalse (fun he => Except.noConfusion he)
  | .error x, .error y =>
    if h : x = y then isTrue (by rw [h]) else isFalse (fun he => h (Except.error.inj he))

/-- Error codes of filesystem.h (the anonymous enum at the top of the header). -/
def FS_ESUCCESS : Int := 0

def FS_EFAILURE : Int := -1

def FS_ETOOLONG : Int := -2

def FS_ENOWRITEDIR : Int := -3

def FS_EWRITEFAIL : Int := -4

def FS_EMKDIRFAIL : Int := -5

def FS_ENOSEARCHPATH : Int := -6

def FS_EREMOVE : Int := -7

/-- Maximum length of a path in bytes, including the terminating NUL
(FS_MAX_PATH, default 256). -/
def FS_MAX_PATH : Nat := 256

/-- File types (fs_file_type in the header). -/
inductive FsFileType where
  | NONE
  | REG
  | DIR
  | SYM
deriving DecidableEq

/-- Result of an OS stat call: the file type and the size in bytes
(st_mode and st_size; st_mtime is not modelled). -/
structure FsStat where
  ftype : FsFileType
  size : Nat
deriving DecidableEq

/-- Library configuration: the two global template strings
_fs_search_path and _fs_write_dir.  The empty string means
unconfigured, exactly as in the C code (which tests the first byte). -/
structure FSState where
  searchPath : String
  writeDir : String
deriving DecidableEq

/-- The backing OS filesystem: regular files as an association list from
path to contents (the first binding for a path is its current
contents), and the set of existing directories. -/
structure OS where
  files : List (String × String)
  dirs : List String
deriving DecidableEq

/-- Trace events for the OS calls an operation performs: a mkdir call, a
successful fopen (handle acquired), an fwrite, an fclose (handle
released), and a remove call. -/
inductive Ev where
  | mkdirE (p : String)
  | openE (p : String)
  | writeE (p : String)
  | closeE (p : String)
  | removeE (p : String)
deriving DecidableEq

/-- Distinguishes mkdir events from all others. -/
def Ev.isMkdir : Ev → Bool
  | .mkdirE _ => true
  | _ => false

/-- Looks up the contents of a regular file in the association list. -/
def lookupFile : List (String × String) → String → Option String
  | [], _ => none
  | e :: rest, p => if e.1 = p then some e.2 else lookupFile rest p

/-- The OS stat primitive on the modelled state: a regular file reports
its contents length as st_size; a directory reports type DIR. -/
def osStat (os : OS) (p : String) : Option FsStat :=
  match lookupFile os.files p with
  | some c => some ⟨FsFileType.REG, c.length⟩
  | none => if p ∈ os.dirs then some ⟨FsFileType.DIR, 0⟩ else none

/-- Total version of osStat used to state first-match results; it is
only consulted on paths whose stat is known to succeed. -/
def statD (os : OS) (p : String) : FsStat :=
  (osStat os p).getD ⟨FsFileType.NONE, 0⟩

/-- Core loop of _fs_concat_path.  The C code repeatedly searches the
template for the marker FS_PATH_MARK; at each occurrence it memcpys the
text before the marker and then the whole filename into the fixed buffer
and only then tests n against FS_MAX_PATH, returning FS_ETOOLONG when the
accumulated length has reached the capacity.  Text after the final marker
is never copied; the buffer is NUL-terminated at the accumulated length.
Arguments: the remaining template, the text scanned since the previous
marker (the pending memcpy prefix), and the bytes accumulated so far.
Returns the accumulated bytes (none on FS_ETOOLONG) together with the
write extent: the total number of buffer bytes the memcpys and the final
NUL store touched, so an extent above the capacity is a write past the
end of the buffer. -/
def _fs_concat_loop (name : List Char) (cap : Nat) :
    List Char → List Char → List Char → Option (List Char) × Nat
  | [], _, acc => (some acc, acc.length + 1)
  | c :: rest, pre, acc =>
    if c = '?' then
      let acc2 := acc ++ pre ++ name
      if cap ≤ acc2.length then (none, acc2.length)
      else _fs_concat_loop name cap rest [] acc2
    else _fs_concat_loop name cap rest (pre ++ [c]) acc

/-- Runs the concat loop of _fs_concat_path on whole strings. -/
def _fs_concat_full (cap : Nat) (path filename : String) : Option (List Char) × Nat :=
  _fs_concat_loop filename.data cap path.data [] []

/-- The result of _fs_concat_path: the substituted concrete path, or
FS_ETOOLONG. -/
def _fs_concat_path (path filename : String) : Except Int String :=
  match (_fs_concat_full FS_MAX_PATH path filename).1 with
  | some l => .ok (String.mk l)
  | none => .error FS_ETOOLONG

/-- Number of buffer bytes written by _fs_concat_path into its
FS_MAX_PATH-byte buffer; a value above FS_MAX_PATH means the memcpys
wrote past the end of the buffer. -/
def concatWriteExtent (path filename : String) : Nat :=
  (_fs_concat_full FS_MAX_PATH path filename).2

/-- Tests whether the first list is a prefix of the second. -/
def beginsWith : List Char → List Char → Bool
  | [], _ => true
  | _ :: _, [] => false
  | p :: ps, c :: cs => p == c && beginsWith ps cs

/-- Tests whether pat occurs as a contiguous substring (the strstr
primitive used by the write sandbox). -/
def isSubstr (pat : List Char) : List Char → Bool
  | [] => pat.isEmpty
  | c :: cs => beginsWith pat (c :: cs) || isSubstr pat cs

/-- Tests for the parent-traversal token, strstr(path, "..") in
_fs_write_to_file_ext. -/
def hasDotDot (p : String) : Bool :=
  isSubstr ['.', '.'] p.data

/-- Everything before the last slash of the list, if it has a slash;
this is the truncation strrchr-based code performs (used by
_FS_CREATE_DIR_TREE and to model mkdir parent lookup). -/
def dirname? : List Char → Option (List Char)
  | [] => none
  | c :: rest =>
    match dirname? rest with
    | some d => some (c :: d)
    | none => if c = '/' then some [] else none

/-- Accumulates the proper prefixes of the path that end just before a
slash, in left-to-right order; seen holds the scanned characters in
reverse. -/
def slashPrefixesAux : List Char → List Char → List (List Char)
  | _, [] => []
  | seen, c :: rest =>
    if c = '/' then seen.reverse :: slashPrefixesAux (c :: seen) rest
    else slashPrefixesAux (c :: seen) rest

/-- All the slash-cut prefixes of the path followed by the path itself,
in root-to-leaf order.  _fs_make_dirs(p) recursively truncates p at its
last slash, creates the ancestors first (discarding their results) and
then calls mkdir on p itself; unrolled, it calls the OS mkdir exactly on
this list, in this order, and its overall result is that of the final
call. -/
def slashPrefixes (l : List Char) : List (List Char) :=
  slashPrefixesAux [] l ++ [l]

/-- The OS mkdir primitive: fails on the empty path, on an existing
path, and when the parent directory does not exist; a path with no slash
is created relative to the working directory. -/
def osMkdir (os : OS) (p : String) : Bool × OS :=
  if p = "" then (false, os)
  else if (osStat os p).isSome then (false, os)
  else
    match dirname? p.data with
    | some d =>
      if String.mk d ∈ os.dirs then (true, ⟨os.files, p :: os.dirs⟩) else (false, os)
    | none => (true, ⟨os.files, p :: os.dirs⟩)

/-- Runs the OS mkdir on each path of the list in order, threading the
state; r is the result of the latest mkdir performed, so the overall
result is that of the last call, every earlier result being discarded
exactly as _fs_make_dirs discards the result of its recursive call. -/
def mkdirChain (os : OS) (r : Int) : List (List Char) → Int × OS × List Ev
  | [] => (r, os, [])
  | q :: rest =>
    let m := osMkdir os (String.mk q)
    let r2 := mkdirChain m.2 (if m.1 then FS_ESUCCESS else FS_EMKDIRFAIL) rest
    (r2.1, r2.2.1, Ev.mkdirE (String.mk q) :: r2.2.2)

/-- The recursive directory creator _fs_make_dirs: mkdir on every
slash-cut prefix from the root down, then on the full path; returns
FS_EMKDIRFAIL exactly when the final mkdir fails. -/
def _fs_make_dirs (os : OS) (p : String) : Int × OS × List Ev :=
  mkdirChain os FS_ESUCCESS (slashPrefixes p.data)

/-- The _FS_CREATE_DIR_TREE macro: when the resolved path has a slash,
run _fs_make_dirs on everything before the last slash, discarding its
result entirely; otherwise do nothing. -/
def createDirTree (os : OS) (buf : String) : OS × List Ev :=
  match dirname? buf.data with
  | some tree =>
    let r := _fs_make_dirs os (String.mk tree)
    (r.2.1, r.2.2)
  | none => (os, [])

/-- Removes every binding of the path from the file list. -/
def eraseFile : List (String × String) → String → List (String × String)
  | [], _ => []
  | e :: rest, p => if e.1 = p then eraseFile rest p else e :: eraseFile rest p

/-- Removes the path from the directory list. -/
def eraseDir : List String → String → List String
  | [], _ => []
  | d :: rest, p => if d = p then eraseDir rest p else d :: eraseDir rest p

/-- Tests whether some file or directory lives directly inside p. -/
def hasChild (os : OS) (p : String) : Bool :=
  os.files.any (fun e => decide (dirname? e.1.data = some p.data)) ||
    os.dirs.any (fun d => decide (dirname? d.data = some p.data))

/-- The OS remove primitive: deletes a regular file, or an empty
directory; fails on a missing path or a non-empty directory. -/
def osRemove (os : OS) (p : String) : Bool × OS :=
  match lookupFile os.files p with
  | some _ => (true, ⟨eraseFile os.files p, os.dirs⟩)
  | none =>
    if p ∈ os.dirs then
      if hasChild os p then (false, os)
      else (true, ⟨os.files, eraseDir os.dirs p⟩)
    else (false, os)

/-- The raw write primitive _fs_write_to_file_ext: rejects any path
containing the traversal token before opening; otherwise opens the file
(append selects mode "a" instead of "w"), writes the whole payload and
closes the handle.  In the model the open succeeds on any nonempty path
that is not a directory, and the write is never short, mirroring the C
code in which wsize equals size whenever fwrite fully succeeds. -/
def _fs_write_to_file_ext (os : OS) (p : String) (append : Bool) (data : String) :
    Int × OS × List Ev :=
  if hasDotDot p then (FS_EWRITEFAIL, os, [])
  else if p ≠ "" ∧ p ∉ os.dirs then
    let newc := if append then (lookupFile os.files p).getD "" ++ data else data
    (FS_ESUCCESS, ⟨(p, newc) :: os.files, os.dirs⟩, [Ev.openE p, Ev.writeE p, Ev.closeE p])
  else (FS_EWRITEFAIL, os, [])

/-- Splits the search-path string into its templates: _fs_get_template
skips separator characters and yields the maximal separator-free chunks
in order; cur holds the current chunk in reverse. -/
def fsGetTemplatesAux : List Char → List Char → List (List Char)
  | [], cur => if cur.isEmpty then [] else [cur.reverse]
  | c :: rest, cur =>
    if c = ';' then
      if cur.isEmpty then fsGetTemplatesAux rest []
      else cur.reverse :: fsGetTemplatesAux rest []
    else fsGetTemplatesAux rest (c :: cur)

/-- The template list produced by iterating _fs_get_template over the
search path. -/
def fsGetTemplates (s : List Char) : List (List Char) :=
  fsGetTemplatesAux s []

/-- Loop body of _fs_check_search_path: substitute the filename into
each template in order (propagating a substitution error immediately,
as the _FS_CNCT_PATH macro returns it) and return the first candidate
whose stat succeeds, with its stat data; FS_EFAILURE when the list is
exhausted. -/
def checkSearchPathGo (os : OS) (filename : String) :
    List (List Char) → Except Int (String × FsStat)
  | [] => .error FS_EFAILURE
  | tp :: rest =>
    match _fs_concat_path (String.mk tp) filename with
    | .error e => .error e
    | .ok p =>
      match osStat os p with
      | some s => .ok (p, s)
      | none => checkSearchPathGo os filename rest

/-- Read-side resolution _fs_check_search_path: fails with
FS_ENOSEARCHPATH on an unconfigured search path, otherwise probes the
templates in configured order. -/
def _fs_check_search_path (os : OS) (sp filename : String) :
    Except Int (String × FsStat) :=
  if sp = "" then .error FS_ENOSEARCHPATH
  else checkSearchPathGo os filename (fsGetTemplates sp.data)

/-- The type classifier _fs_get_type: NONE when resolution fails,
otherwise the type from the stat data. -/
def _fs_get_type (os : OS) (st : FSState) (filename : String) : FsFileType :=
  match _fs_check_search_path os st.searchPath filename with
  | .error _ => FsFileType.NONE
  | .ok r => r.2.ftype

/-- Public fs_exists. -/
def fs_exists (os : OS) (st : FSState) (path : String) : Int :=
  if st.searchPath = "" then FS_ENOSEARCHPATH
  else if _fs_get_type os st path ≠ FsFileType.NONE then FS_ESUCCESS else FS_EFAILURE

/-- Public fs_read.  On resolver success it opens the matched path in
binary read mode (which in the model succeeds exactly when the path is a
regular file), stores the probed size, allocates a buffer (the allocOk
oracle models FS_MALLOC), copies the contents, closes the handle and
returns the buffer with the probed size.  When the allocation fails the
C code returns NULL immediately, without fclose, so the trace keeps the
open event with no matching close. -/
def fs_read (os : OS) (st : FSState) (name : String) (allocOk : Bool) :
    Option (String × Nat) × List Ev :=
  match _fs_check_search_path os st.searchPath name with
  | .error _ => (none, [])
  | .ok (p, s) =>
    match lookupFile os.files p with
    | none => (none, [])
    | some content =>
      if allocOk then (some (content, s.size), [Ev.openE p, Ev.closeE p])
      else (none, [Ev.openE p])

/-- Public fs_get_info: the sanity check, then resolution; on success
the stat data is copied into the returned info record. -/
def fs_get_info (os : OS) (st : FSState) (path : String) : Int × Option FsStat :=
  if st.searchPath = "" then (FS_ENOSEARCHPATH, none)
  else
    match _fs_check_search_path os st.searchPath path with
    | .error e => (e, none)
    | .ok r => (FS_ESUCCESS, some r.2)

/-- Public fs_write: the write-directory sanity check, substitution into
the write-directory template, the _FS_CREATE_DIR_TREE macro, then the
raw write primitive in truncating mode. -/
def fs_write (os : OS) (st : FSState) (name data : String) : Int × OS × List Ev :=
  if st.writeDir = "" then (FS_ENOWRITEDIR, os, [])
  else
    match _fs_concat_path st.writeDir name with
    | .error e => (e, os, [])
    | .ok buf =>
      let c := createDirTree os buf
      let w := _fs_write_to_file_ext c.1 buf false data
      (w.1, w.2.1, c.2 ++ w.2.2)

/-- Public fs_append: as fs_write but the raw primitive opens in append
mode. -/
def fs_append (os : OS) (st : FSState) (name data : String) : Int × OS × List Ev :=
  if st.writeDir = "" then (FS_ENOWRITEDIR, os, [])
  else
    match _fs_concat_path st.writeDir name with
    | .error e => (e, os, [])
    | .ok buf =>
      let c := createDirTree os buf
      let w := _fs_write_to_file_ext c.1 buf true data
      (w.1, w.2.1, c.2 ++ w.2.2)

/-- Public fs_mkdir: sanity check, substitution, then _fs_make_dirs on
the full resolved path (no traversal check anywhere on this route). -/
def fs_mkdir (os : OS) (st : FSState) (path : String) : Int × OS × List Ev :=
  if st.writeDir = "" then (FS_ENOWRITEDIR, os, [])
  else
    match _fs_concat_path st.writeDir path with
    | .error e => (e, os, [])
    | .ok buf => _fs_make_dirs os buf

/-- Public fs_delete: sanity check, substitution, then the OS remove on
the resolved path (no traversal check on this route either). -/
def fs_delete (os : OS) (st : FSState) (name : String) : Int × OS × List Ev :=
  if st.writeDir = "" then (FS_ENOWRITEDIR, os, [])
  else
    match _fs_concat_path st.writeDir name with
    | .error e => (e, os, [])
    | .ok buf =>
      let r := osRemove os buf
      ((if r.1 then FS_ESUCCESS else FS_EREMOVE), r.2, [Ev.removeE buf])

/-- Public fs_set_search_path: rejects strings whose length reaches
FS_MAX_PATH, otherwise stores the raw string with no further
validation. -/
def fs_set_search_path (st : FSState) (path : String) : Int × FSState :=
  if FS_MAX_PATH ≤ path.length then (FS_ETOOLONG, st)
  else (FS_ESUCCESS, { st with searchPath := path })

/-- Public fs_set_write_dir: same validation as fs_set_search_path. -/
def fs_set_write_dir (st : FSState) (path : String) : Int × FSState :=
  if FS_MAX_PATH ≤ path.length then (FS_ETOOLONG, st)
  else (FS_ESUCCESS, { st with writeDir := path })

/-- Public fs_get_search_path. -/
def fs_get_search_path (st : FSState) : String :=
  st.searchPath

/-- Public fs_get_write_dir. -/
def fs_get_write_dir (st : FSState) : String :=
  st.writeDir

/-- Specification-side substitution, following the words of the spec: it
replaces every occurrence of the placeholder marker with the logical
name, keeping all other template text, including the text after the
final marker. -/
def specSubstAux (name : List Char) : List Char → List Char
  | [] => []
  | c :: rest =>
    if c = '?' then name ++ specSubstAux name rest
    else c :: specSubstAux name rest

/-- Specification-side substitution on whole strings (global
find-and-replace of the marker by the logical name). -/
def specSubstitute (t name : String) : String :=
  String.mk (specSubstAux name.data t.data)

lemma mk_data (t : String) : String.mk t.data = t := rfl

lemma str_empty_append (s : String) : "" ++ s = s := rfl

lemma lookupFile_cons_self (p c : String) (fs : List (String × String)) :
    lookupFile ((p, c) :: fs) p = some c := by
  simp [lookupFile]

lemma osMkdir_files (os : OS) (p : String) : (osMkdir os p).2.files = os.files := by
  unfold osMkdir
  repeat' split
  all_goals rfl

lemma osMkdir_dirs_mem (os : OS) (p : String) :
    ∀ x ∈ (osMkdir os p).2.dirs, x = p ∨ x ∈ os.dirs := by
  unfold osMkdir
  repeat' split
  all_goals first
  | exact fun x hx => Or.inr hx
  | exact fun x hx => List.mem_cons.mp hx

lemma osMkdir_dirs_sub (os : OS) (p : String) : os.dirs ⊆ (osMkdir os p).2.dirs := by
  unfold osMkdir
  repeat' split
  all_goals first
  | exact fun x hx => hx
  | exact fun x hx => List.mem_cons_of_mem _ hx

lemma osMkdir_fail_of_exists (os : OS) (p : String) (h : (osStat os p).isSome = true) :
    (osMkdir os p).1 = false := by
  unfold osMkdir
  by_cases hp : p = ""
  · rw [if_pos hp]
  · rw [if_neg hp, if_pos h]

lemma mkdirChain_files (qs : List (List Char)) :
    ∀ (os : OS) (r : Int), ((mkdirChain os r qs).2.1).files = os.files := by
  induction qs with
  | nil => intro os r; rfl
  | cons q rest ih =>
    intro os r
    simp only [mkdirChain]
    rw [ih]
    exact osMkdir_files os (String.mk q)

lemma mkdirChain_dirs_sub (qs : List (List Char)) :
    ∀ (os : OS) (r : Int), os.dirs ⊆ (mkdirChain os r qs).2.1.dirs := by
  induction qs with
  | nil => intro os r x hx; exact hx
  | cons q rest ih =>
    intro os r x hx
    simp only [mkdirChain]
    exact ih _ _ (osMkdir_dirs_sub os (String.mk q) hx)

lemma mkdirChain_dirs_mem (qs : List (List Char)) :
    ∀ (os : OS) (r : Int) (x : String), x ∈ (mkdirChain os r qs).2.1.dirs →
      x ∈ os.dirs ∨ ∃ q ∈ qs, x = String.mk q := by
  induction qs with
  | nil => intro os r x hx; exact Or.inl hx
  | cons q rest ih =>
    intro os r x hx
    simp only [mkdirChain] at hx
    rcases ih _ _ x hx with h1 | h2
    · rcases osMkdir_dirs_mem os (String.mk q) x h1 with h3 | h4
      · exact Or.inr ⟨q, List.mem_cons_self q rest, h3⟩
      · exact Or.inl h4
    · rcases h2 with ⟨q2, hq2, hx2⟩
      exact Or.inr ⟨q2, List.mem_cons_of_mem _ hq2, hx2⟩

lemma mkdirChain_trace_mkdir (qs : List (List Char)) :
    ∀ (os : OS) (r : Int) (e : Ev), e ∈ (mkdirChain os r qs).2.2 → e.isMkdir = true := by
  induction qs with
  | nil => intro os r e he; cases he
  | cons q rest ih =>
    intro os r e he
    simp only [mkdirChain] at he
    rcases List.mem_cons.mp he with h | h
    · rw [h]; rfl
    · exact ih _ _ e h

lemma mkdirChain_snoc (qs : List (List Char)) :
    ∀ (os : OS) (r : Int) (q : List Char), ∃ os2 : OS,
      (mkdirChain os r (qs ++ [q])).1 =
        (if (osMkdir os2 (String.mk q)).1 then FS_ESUCCESS else FS_EMKDIRFAIL) ∧
      os2.files = os.files ∧ os.dirs ⊆ os2.dirs := by
  induction qs with
  | nil =>
    intro os r q
    exact ⟨os, rfl, rfl, fun x hx => hx⟩
  | cons q1 rest ih =>
    intro os r q
    obtain ⟨os2, h1, h2, h3⟩ := ih (osMkdir os (String.mk q1)).2
      (if (osMkdir os (String.mk q1)).1 then FS_ESUCCESS else FS_EMKDIRFAIL) q
    refine ⟨os2, ?_, ?_, ?_⟩
    · simp only [List.cons_append, mkdirChain]
      exact h1
    · rw [h2, osMkdir_files]
    · exact fun x hx => h3 (osMkdir_dirs_sub os (String.mk q1) hx)

lemma osStat_isSome_of (os os2 : OS) (p : String)
    (hf : os2.files = os.files) (hd : os.dirs ⊆ os2.dirs)
    (h : (osStat os p).isSome = true) : (osStat os2 p).isSome = true := by
  unfold osStat at h ⊢
  rw [hf]
  cases hl : lookupFile os.files p with
  | some c => rfl
  | none =>
    rw [hl] at h
    by_cases hm : p ∈ os.dirs
    · rw [if_pos (hd hm)]; rfl
    · rw [if_neg hm] at h; cases h

lemma make_dirs_fail_of_exists (os : OS) (p : String)
    (h : (osStat os p).isSome = true) : (_fs_make_dirs os p).1 = FS_EMKDIRFAIL := by
  unfold _fs_make_dirs slashPrefixes
  obtain ⟨os2, h1, h2, h3⟩ := mkdirChain_snoc (slashPrefixesAux [] p.data) os FS_ESUCCESS p.data
  rw [h1]
  have hs : (osStat os2 p).isSome = true := osStat_isSome_of os os2 p h2 h3 h
  have hfail : (osMkdir os2 (String.mk p.data)).1 = false := by
    rw [mk_data]
    exact osMkdir_fail_of_exists os2 p hs
  rw [hfail]
  rfl

lemma dirname?_length : ∀ (l d : List Char), dirname? l = some d → d.length < l.length := by
  intro l
  induction l with
  | nil => intro d h; simp [dirname?] at h
  | cons c rest ih =>
    intro d h
    simp only [dirname?] at h
    cases hr : dirname? rest with
    | some d2 =>
      rw [hr] at h
      cases h
      exact Nat.succ_lt_succ (ih d2 hr)
    | none =>
      rw [hr] at h
      by_cases hc : c = '/'
      · rw [if_pos hc] at h
        cases h
        exact Nat.succ_pos _
      · rw [if_neg hc] at h
        cases h

lemma slashPrefixesAux_length : ∀ (l seen q : List Char),
    q ∈ slashPrefixesAux seen l → q.length ≤ seen.length + l.length := by
  intro l
  induction l with
  | nil => intro seen q hq; cases hq
  | cons c rest ih =>
    intro seen q hq
    simp only [slashPrefixesAux] at hq
    by_cases hc : c = '/'
    · rw [if_pos hc] at hq
      rcases List.mem_cons.mp hq with h | h
      · rw [h]
        simp only [List.length_reverse, List.length_cons]
        omega
      · have := ih (c :: seen) q h
        simp only [List.length_cons] at this ⊢
        omega
    · rw [if_neg hc] at hq
      have := ih (c :: seen) q hq
      simp only [List.length_cons] at this ⊢
      omega

lemma slashPrefixes_length (l q : List Char) (hq : q ∈ slashPrefixes l) :
    q.length ≤ l.length := by
  unfold slashPrefixes at hq
  rcases List.mem_append.mp hq with h | h
  · have := slashPrefixesAux_length l [] q h
    simpa using this
  · rw [List.mem_singleton.mp h]

lemma createDirTree_files (os : OS) (buf : String) :
    (createDirTree os buf).1.files = os.files := by
  unfold createDirTree
  cases hd : dirname? buf.data with
  | none => rfl
  | some tree => exact mkdirChain_files _ _ _

lemma createDirTree_not_dir (os : OS) (buf : String) (h : buf ∉ os.dirs) :
    buf ∉ (createDirTree os buf).1.dirs := by
  unfold createDirTree
  cases hd : dirname? buf.data with
  | none => exact h
  | some tree =>
    intro hmem
    rcases mkdirChain_dirs_mem _ _ _ _ hmem with h1 | h2
    · exact h h1
    · rcases h2 with ⟨q, hq, heq⟩
      have hlen : q.length ≤ tree.length := slashPrefixes_length tree q hq
      have hlt : tree.length < buf.data.length := dirname?_length _ _ hd
      have hbq : buf.data = q := by rw [heq]
      have : buf.data.length = q.length := by rw [hbq]
      omega

lemma createDirTree_trace (os : OS) (buf : String) :
    ∀ e ∈ (createDirTree os buf).2, e.isMkdir = true := by
  unfold createDirTree
  cases hd : dirname? buf.data with
  | none => intro e he; cases he
  | some tree => intro e he; exact mkdirChain_trace_mkdir _ _ _ e he

lemma write_ext_dotdot (os : OS) (p : String) (app : Bool) (data : String)
    (h : hasDotDot p = true) :
    _fs_write_to_file_ext os p app data = (FS_EWRITEFAIL, os, []) := by
  unfold _fs_write_to_file_ext
  rw [if_pos h]

lemma write_ext_ok (os : OS) (p : String) (app : Bool) (data : String)
    (h1 : hasDotDot p = false) (h2 : p ≠ "") (h3 : p ∉ os.dirs) :
    _fs_write_to_file_ext os p app data =
      (FS_ESUCCESS,
        ⟨(p, if app then (lookupFile os.files p).getD "" ++ data else data) :: os.files,
          os.dirs⟩,
        [Ev.openE p, Ev.writeE p, Ev.closeE p]) := by
  unfold _fs_write_to_file_ext
  rw [if_neg (by simp [h1]), if_pos ⟨h2, h3⟩]

lemma templates_nonempty (t : String) (hs : fsGetTemplates t.data = [t.data]) : t ≠ "" := by
  intro h0
  rw [h0] at hs
  simp [fsGetTemplates, fsGetTemplatesAux] at hs

lemma check_singleton (os : OS) (t name p c : String)
    (ht : t ≠ "") (hs : fsGetTemplates t.data = [t.data])
    (hc : _fs_concat_path t name = .ok p)
    (hf : lookupFile os.files p = some c) :
    _fs_check_search_path os t name = .ok (p, ⟨FsFileType.REG, c.length⟩) := by
  unfold _fs_check_search_path
  rw [if_neg ht, hs]
  simp only [checkSearchPathGo]
  rw [mk_data, hc]
  simp only []
  unfold osStat
  rw [hf]

lemma read_some (os : OS) (st : FSState) (t name p c : String)
    (hsp : st.searchPath = t)
    (ht : t ≠ "") (hs : fsGetTemplates t.data = [t.data])
    (hc : _fs_concat_path t name = .ok p)
    (hf : lookupFile os.files p = some c) :
    fs_read os st name true = (some (c, c.length), [Ev.openE p, Ev.closeE p]) := by
  unfold fs_read
  rw [hsp, check_singleton os t name p c ht hs hc hf]
  simp only []
  rw [hf]
  rfl

lemma write_read_aux (os : OS) (st : FSState) (t name data p : String)
    (hsp : st.searchPath = t) (hwd : st.writeDir = t)
    (hs : fsGetTemplates t.data = [t.data])
    (hc : _fs_concat_path t name = .ok p)
    (hd : hasDotDot p = false) (hp : p ≠ "") (hpd : p ∉ os.dirs) :
    (fs_write os st name data).1 = FS_ESUCCESS ∧
    (fs_write os st name data).2.1.files = (p, data) :: os.files ∧
    p ∉ (fs_write os st name data).2.1.dirs ∧
    (fs_read (fs_write os st name data).2.1 st name true).1 = some (data, data.length) := by
  have ht : t ≠ "" := templates_nonempty t hs
  have hw : fs_write os st name data =
      (FS_ESUCCESS,
        ⟨(p, data) :: (createDirTree os p).1.files, (createDirTree os p).1.dirs⟩,
        (createDirTree os p).2 ++ [Ev.openE p, Ev.writeE p, Ev.closeE p]) := by
    unfold fs_write
    rw [hwd, if_neg ht, hc]
    simp only []
    rw [write_ext_ok _ p false data hd hp (createDirTree_not_dir os p hpd)]
    rfl
  refine ⟨by rw [hw], ?_, ?_, ?_⟩
  · rw [hw]
    simp only []
    rw [createDirTree_files]
  · rw [hw]
    exact createDirTree_not_dir os p hpd
  · rw [hw]
    have hread := read_some
      (⟨(p, data) :: (createDirTree os p).1.files, (createDirTree os p).1.dirs⟩ : OS)
      st t name p data hsp ht hs hc (lookupFile_cons_self p data _)
    rw [hread]

lemma append_aux (os : OS) (st : FSState) (t name A p : String)
    (hwd : st.writeDir = t)
    (hs : fsGetTemplates t.data = [t.data])
    (hc : _fs_concat_path t name = .ok p)
    (hd : hasDotDot p = false) (hp : p ≠ "") (hpd : p ∉ os.dirs) :
    (fs_append os st name A).1 = FS_ESUCCESS ∧
    (fs_append os st name A).2.1.files =
      (p, (lookupFile os.files p).getD "" ++ A) :: os.files ∧
    p ∉ (fs_append os st name A).2.1.dirs := by
  have ht : t ≠ "" := templates_nonempty t hs
  have hw : fs_append os st name A =
      (FS_ESUCCESS,
        ⟨(p, (lookupFile (createDirTree os p).1.files p).getD "" ++ A) ::
            (createDirTree os p).1.files,
          (createDirTree os p).1.dirs⟩,
        (createDirTree os p).2 ++ [Ev.openE p, Ev.writeE p, Ev.closeE p]) := by
    unfold fs_append
    rw [hwd, if_neg ht, hc]
    simp only []
    rw [write_ext_ok _ p true A hd hp (createDirTree_not_dir os p hpd)]
    rfl
  refine ⟨by rw [hw], ?_, ?_⟩
  · rw [hw]
    simp only []
    rw [createDirTree_files]
  · rw [hw]
    exact createDirTree_not_dir os p hpd

lemma checkSearchPathGo_find (os : OS) (name : String) (ts : List (List Char))
    (pf : List Char → String)
    (h : ∀ tp ∈ ts, _fs_concat_path (String.mk tp) name = .ok (pf tp)) :
    checkSearchPathGo os name ts =
      match (ts.map pf).find? (fun q => (osStat os q).isSome) with
      | some q => .ok (q, statD os q)
      | none => .error FS_EFAILURE := by
  induction ts with
  | nil => rfl
  | cons tp rest ih =>
    have h1 : _fs_concat_path (String.mk tp) name = .ok (pf tp) :=
      h tp (List.mem_cons_self tp rest)
    have h2 : ∀ tq ∈ rest, _fs_concat_path (String.mk tq) name = .ok (pf tq) :=
      fun tq hq => h tq (List.mem_cons_of_mem _ hq)
    simp only [checkSearchPathGo, h1, List.map_cons]
    cases hs : osStat os (pf tp) with
    | some s =>
      have hfind : List.find? (fun q => (osStat os q).isSome) (pf tp :: List.map pf rest)
          = some (pf tp) := by
        simp [List.find?, hs]
      rw [hfind]
      simp [statD, hs]
    | none =>
      have hfind : List.find? (fun q => (osStat os q).isSome) (pf tp :: List.map pf rest)
          = List.find? (fun q => (osStat os q).isSome) (List.map pf rest) := by
        simp [List.find?, hs]
      rw [hfind]
      exact ih h2

lemma concat_no_mark_loop (nm : List Char) : ∀ (s pre : List Char),
    (∀ c ∈ s, c ≠ '?') →
    _fs_concat_loop nm FS_MAX_PATH s pre [] = (some [], 1) := by
  intro s
  induction s with
  | nil => intro pre h; rfl
  | cons c rest ih =>
    intro pre h
    have hc : ¬ c = '?' := h c (List.mem_cons_self c rest)
    simp only [_fs_concat_loop, if_neg hc]
    exact ih _ (fun x hx => h x (List.mem_cons_of_mem _ hx))

/-- C1: the claim states that _fs_concat_path globally substitutes the
logical name for every marker occurrence, keeping the surrounding
template text.  The code instead stops copying at the last marker, so
all template text after the final marker is silently dropped: on the
template with a marker in the middle the code yields "ax" where global
substitution (specSubstitute, following the words of the spec and of the
header documentation) yields "axb". -/
theorem C1_concat_drops_tail :
    _fs_concat_path "a?b" "x" = .ok "ax" ∧
    specSubstitute "a?b" "x" = "axb" ∧
    _fs_concat_path "a?b" "x" ≠ .ok (specSubstitute "a?b" "x") := by
  decide

/-- C2 counterexample: a logical name whose resolved concrete path
contains the traversal token does not make every mutating operation fail
without touching the filesystem.  fs_mkdir performs no traversal check
at all: with write directory "./?" and name "../evil" it succeeds, and
it creates the directory ./../evil, outside the write directory. -/
theorem C2_counterexample :
    _fs_concat_path "./?" "../evil" = .ok "./../evil" ∧
    hasDotDot "./../evil" = true ∧
    (fs_mkdir ⟨[], ["."]⟩ ⟨"./?", "./?"⟩ "../evil").1 = FS_ESUCCESS ∧
    "./../evil" ∈ (fs_mkdir ⟨[], ["."]⟩ ⟨"./?", "./?"⟩ "../evil").2.1.dirs ∧
    (fs_mkdir ⟨[], ["."]⟩ ⟨"./?", "./?"⟩ "../evil").2.2 ≠ [] := by
  decide

/-- C2 amended: when the resolved path contains the traversal token,
fs_write and fs_append do fail with FS_EWRITEFAIL and never open or
write the target file (their traces hold only the mkdir calls of the
ancestor-creation step, which has already run, and the file map is
unchanged), while fs_delete performs no traversal check and always
issues the OS remove call on the resolved path. -/
theorem C2_traversal_check_scope (os : OS) (st : FSState) (name data p : String)
    (hw : st.writeDir ≠ "") (hc : _fs_concat_path st.writeDir name = .ok p)
    (hd : hasDotDot p = true) :
    ((fs_write os st name data).1 = FS_EWRITEFAIL ∧
      (fs_write os st name data).2.1.files = os.files ∧
      ∀ e ∈ (fs_write os st name data).2.2, e.isMkdir = true) ∧
    ((fs_append os st name data).1 = FS_EWRITEFAIL ∧
      (fs_append os st name data).2.1.files = os.files ∧
      ∀ e ∈ (fs_append os st name data).2.2, e.isMkdir = true) ∧
    (fs_delete os st name).2.2 = [Ev.removeE p] := by
  have hwr : fs_write os st name data =
      (FS_EWRITEFAIL, (createDirTree os p).1, (createDirTree os p).2 ++ []) := by
    unfold fs_write
    rw [if_neg hw, hc]
    simp only []
    rw [write_ext_dotdot _ p false data hd]
  have hap : fs_append os st name data =
      (FS_EWRITEFAIL, (createDirTree os p).1, (createDirTree os p).2 ++ []) := by
    unfold fs_append
    rw [if_neg hw, hc]
    simp only []
    rw [write_ext_dotdot _ p true data hd]
  refine ⟨⟨by rw [hwr], ?_, ?_⟩, ⟨by rw [hap], ?_, ?_⟩, ?_⟩
  · rw [hwr]; exact createDirTree_files os p
  · rw [hwr]
    intro e he
    rw [List.append_nil] at he
    exact createDirTree_trace os p e he
  · rw [hap]; exact createDirTree_files os p
  · rw [hap]
    intro e he
    rw [List.append_nil] at he
    exact createDirTree_trace os p e he
  · unfold fs_delete
    rw [if_neg hw, hc]

/-- C2 witness: the amended theorem applied to write directory "./?",
name "../e/f" resolving to "./../e/f". -/
theorem C2_witness :
    (FSState.writeDir ⟨"./?", "./?"⟩ ≠ "") ∧
    _fs_concat_path "./?" "../e/f" = .ok "./../e/f" ∧
    hasDotDot "./../e/f" = true ∧
    (fs_write ⟨[], ["."]⟩ ⟨"./?", "./?"⟩ "../e/f" "x").1 = FS_EWRITEFAIL :=
  ⟨by decide, by decide, by decide,
    (C2_traversal_check_scope ⟨[], ["."]⟩ ⟨"./?", "./?"⟩ "../e/f" "x" "./../e/f"
      (by decide) (by decide) (by decide)).1.1⟩

set_option maxRecDepth 4096 in
/-- C3: the claim states that no out-of-bounds write ever occurs in
_fs_concat_path.  The code checks the accumulated length only after the
memcpys of an iteration have run, so a 300-byte filename substituted
into the one-marker template makes the copies touch 300 bytes of the
256-byte buffer (write extent 300) before FS_ETOOLONG is returned. -/
theorem C3_bounds_check_after_write :
    _fs_concat_path "?" (String.mk (List.replicate 300 'a')) = .error FS_ETOOLONG ∧
    FS_MAX_PATH < concatWriteExtent "?" (String.mk (List.replicate 300 'a')) := by
  decide

/-- C4: read-side resolution probes the semicolon-separated templates in
configured order and returns the first candidate whose stat succeeds,
with its stat data; earlier templates win ties, and FS_EFAILURE is
returned when no candidate exists.  Stated for any non-empty search path
whose template substitutions all succeed (pf names the candidate each
template resolves to). -/
theorem C4_first_match_wins (os : OS) (sp name : String) (pf : List Char → String)
    (hne : sp ≠ "")
    (h : ∀ tp ∈ fsGetTemplates sp.data, _fs_concat_path (String.mk tp) name = .ok (pf tp)) :
    _fs_check_search_path os sp name =
      match ((fsGetTemplates sp.data).map pf).find? (fun q => (osStat os q).isSome) with
      | some q => .ok (q, statD os q)
      | none => .error FS_EFAILURE := by
  unfold _fs_check_search_path
  rw [if_neg hne]
  exact checkSearchPathGo_find os name _ pf h

/-- C4 witness: with files at ./a/x and ./b/x both existing, the search
path "./a/?;./b/?" resolves to the earlier candidate ./a/x with its stat
data. -/
theorem C4_witness :
    _fs_check_search_path ⟨[("./a/x", "1"), ("./b/x", "22")], ["."]⟩ "./a/?;./b/?" "x" =
      .ok ("./a/x", ⟨FsFileType.REG, 1⟩) := by
  have h := C4_first_match_wins ⟨[("./a/x", "1"), ("./b/x", "22")], ["."]⟩ "./a/?;./b/?" "x"
    (fun tp => ((_fs_concat_path (String.mk tp) "x").toOption).getD "")
    (by decide) (by decide)
  rw [h]
  decide

/-- C5: with the search path and the write directory both configured to
the same single template, a successful fs_write of any payload followed
by fs_read of the same logical name returns exactly the written bytes
and reports the written size. -/
theorem C5_write_read_roundtrip (os : OS) (t name data p : String)
    (hs : fsGetTemplates t.data = [t.data])
    (hc : _fs_concat_path t name = .ok p)
    (hd : hasDotDot p = false) (hp : p ≠ "") (hpd : p ∉ os.dirs) :
    (fs_write os ⟨t, t⟩ name data).1 = FS_ESUCCESS ∧
    (fs_read (fs_write os ⟨t, t⟩ name data).2.1 ⟨t, t⟩ name true).1 =
      some (data, data.length) := by
  have h := write_read_aux os ⟨t, t⟩ t name data p rfl rfl hs hc hd hp hpd
  exact ⟨h.1, h.2.2.2⟩

/-- C5 witness: writing "hello" under template "./?" and reading it back
returns the five written bytes with size five. -/
theorem C5_witness :
    (fs_write ⟨[], ["."]⟩ ⟨"./?", "./?"⟩ "n" "hello").1 = FS_ESUCCESS ∧
    (fs_read (fs_write ⟨[], ["."]⟩ ⟨"./?", "./?"⟩ "n" "hello").2.1 ⟨"./?", "./?"⟩ "n" true).1 =
      some ("hello", 5) :=
  C5_write_read_roundtrip ⟨[], ["."]⟩ "./?" "n" "hello" "./n"
    (by decide) (by decide) (by decide) (by decide) (by decide)

/-- C6: under the same configuration as the round-trip claim, appending
A and then B to a name with no prior content and reading yields exactly
the concatenation of A and B; and a successful fs_write to a name with
prior content fully replaces it, the read returning only the new
bytes. -/
theorem C6_append_concat_write_replace :
    (∀ (os : OS) (t name A B p : String),
      fsGetTemplates t.data = [t.data] → _fs_concat_path t name = .ok p →
      hasDotDot p = false → p ≠ "" → p ∉ os.dirs →
      lookupFile os.files p = none →
      (fs_append os ⟨t, t⟩ name A).1 = FS_ESUCCESS ∧
      (fs_append (fs_append os ⟨t, t⟩ name A).2.1 ⟨t, t⟩ name B).1 = FS_ESUCCESS ∧
      (fs_read (fs_append (fs_append os ⟨t, t⟩ name A).2.1 ⟨t, t⟩ name B).2.1
        ⟨t, t⟩ name true).1 = some (A ++ B, (A ++ B).length)) ∧
    (∀ (os : OS) (t name data p old : String),
      fsGetTemplates t.data = [t.data] → _fs_concat_path t name = .ok p →
      hasDotDot p = false → p ≠ "" → p ∉ os.dirs →
      lookupFile os.files p = some old →
      (fs_write os ⟨t, t⟩ name data).1 = FS_ESUCCESS ∧
      (fs_read (fs_write os ⟨t, t⟩ name data).2.1 ⟨t, t⟩ name true).1 =
        some (data, data.length)) := by
  constructor
  · intro os t name A B p hs hc hd hp hpd hnone
    have ht : t ≠ "" := templates_nonempty t hs
    have h1 := append_aux os ⟨t, t⟩ t name A p rfl hs hc hd hp hpd
    have hfiles1 : (fs_append os ⟨t, t⟩ name A).2.1.files = (p, A) :: os.files := by
      rw [h1.2.1, hnone]
      rfl
    have h2 := append_aux (fs_append os ⟨t, t⟩ name A).2.1 ⟨t, t⟩ t name B p rfl hs hc hd hp
      h1.2.2
    have hfiles2 : (fs_append (fs_append os ⟨t, t⟩ name A).2.1 ⟨t, t⟩ name B).2.1.files =
        (p, A ++ B) :: (fs_append os ⟨t, t⟩ name A).2.1.files := by
      rw [h2.2.1, hfiles1, lookupFile_cons_self]
      rfl
    refine ⟨h1.1, h2.1, ?_⟩
    have hread := read_some (fs_append (fs_append os ⟨t, t⟩ name A).2.1 ⟨t, t⟩ name B).2.1
      ⟨t, t⟩ t name p (A ++ B) rfl ht hs hc (by rw [hfiles2]; exact lookupFile_cons_self _ _ _)
    rw [hread]
  · intro os t name data p old hs hc hd hp hpd hsome
    have h := write_read_aux os ⟨t, t⟩ t name data p rfl rfl hs hc hd hp hpd
    exact ⟨h.1, h.2.2.2⟩

/-- C6 witness: appending "ab" then "cd" to a fresh name and reading
yields "abcd"; writing "new" over prior content "old" and reading yields
exactly "new". -/
theorem C6_witness :
    (fs_read (fs_append (fs_append ⟨[], ["."]⟩ ⟨"./?", "./?"⟩ "n" "ab").2.1
        ⟨"./?", "./?"⟩ "n" "cd").2.1 ⟨"./?", "./?"⟩ "n" true).1 = some ("abcd", 4) ∧
    (fs_read (fs_write ⟨[("./n", "old")], ["."]⟩ ⟨"./?", "./?"⟩ "n" "new").2.1
        ⟨"./?", "./?"⟩ "n" true).1 = some ("new", 3) :=
  ⟨(C6_append_concat_write_replace.1 ⟨[], ["."]⟩ "./?" "n" "ab" "cd" "./n"
      (by decide) (by decide) (by decide) (by decide) (by decide) (by decide)).2.2,
    (C6_append_concat_write_replace.2 ⟨[("./n", "old")], ["."]⟩ "./?" "n" "new" "./n" "old"
      (by decide) (by decide) (by decide) (by decide) (by decide) (by decide)).2⟩

/-- C7: with a write directory configured, fs_mkdir on a name whose
resolved path already exists fails with FS_EMKDIRFAIL (mkdir is not
idempotent); and on the multi-segment name "a/b/c" under write directory
"./?" with no pre-existing ancestors it succeeds, calling the OS mkdir
in root-to-leaf order and creating every ancestor and the leaf, after
which a second identical fs_mkdir fails with FS_EMKDIRFAIL. -/
theorem C7_mkdir_not_idempotent_and_deep_create :
    (∀ (os : OS) (st : FSState) (name p : String),
      st.writeDir ≠ "" → _fs_concat_path st.writeDir name = .ok p →
      (osStat os p).isSome = true →
      (fs_mkdir os st name).1 = FS_EMKDIRFAIL) ∧
    ((fs_mkdir ⟨[], ["."]⟩ ⟨"./?", "./?"⟩ "a/b/c").1 = FS_ESUCCESS ∧
      (fs_mkdir ⟨[], ["."]⟩ ⟨"./?", "./?"⟩ "a/b/c").2.2 =
        [Ev.mkdirE ".", Ev.mkdirE "./a", Ev.mkdirE "./a/b", Ev.mkdirE "./a/b/c"] ∧
      "./a" ∈ (fs_mkdir ⟨[], ["."]⟩ ⟨"./?", "./?"⟩ "a/b/c").2.1.dirs ∧
      "./a/b" ∈ (fs_mkdir ⟨[], ["."]⟩ ⟨"./?", "./?"⟩ "a/b/c").2.1.dirs ∧
      "./a/b/c" ∈ (fs_mkdir ⟨[], ["."]⟩ ⟨"./?", "./?"⟩ "a/b/c").2.1.dirs ∧
      (fs_mkdir (fs_mkdir ⟨[], ["."]⟩ ⟨"./?", "./?"⟩ "a/b/c").2.1
        ⟨"./?", "./?"⟩ "a/b/c").1 = FS_EMKDIRFAIL) := by
  constructor
  · intro os st name p hw hc hstat
    unfold fs_mkdir
    rw [if_neg hw, hc]
    exact make_dirs_fail_of_exists os p hstat
  · exact ⟨by decide, by decide, by decide, by decide, by decide, by decide⟩

/-- C7 witness: the general non-idempotence part applied to an existing
directory "a" resolved through the template "?". -/
theorem C7_witness :
    _fs_concat_path "?" "a" = .ok "a" ∧
    (osStat ⟨[], ["a"]⟩ "a").isSome = true ∧
    (fs_mkdir ⟨[], ["a"]⟩ ⟨"?", "?"⟩ "a").1 = FS_EMKDIRFAIL :=
  ⟨by decide, by decide,
    C7_mkdir_not_idempotent_and_deep_create.1 ⟨[], ["a"]⟩ ⟨"?", "?"⟩ "a" "a"
      (by decide) (by decide) (by decide)⟩

/-- C8: with an unconfigured (empty) write directory, fs_write,
fs_append, fs_mkdir and fs_delete return FS_ENOWRITEDIR, leave the
filesystem untouched and perform no OS call; with an unconfigured search
path, fs_exists and fs_get_info return FS_ENOSEARCHPATH and fs_read
returns a null result. -/
theorem C8_unconfigured_errors (os : OS) (name data : String) (allocOk : Bool) :
    (∀ st : FSState, st.writeDir = "" →
      fs_write os st name data = (FS_ENOWRITEDIR, os, []) ∧
      fs_append os st name data = (FS_ENOWRITEDIR, os, []) ∧
      fs_mkdir os st name = (FS_ENOWRITEDIR, os, []) ∧
      fs_delete os st name = (FS_ENOWRITEDIR, os, [])) ∧
    (∀ st : FSState, st.searchPath = "" →
      fs_exists os st name = FS_ENOSEARCHPATH ∧
      fs_get_info os st name = (FS_ENOSEARCHPATH, none) ∧
      fs_read os st name allocOk = (none, [])) := by
  constructor
  · intro st h
    refine ⟨?_, ?_, ?_, ?_⟩ <;> simp [fs_write, fs_append, fs_mkdir, fs_delete, h]
  · intro st h
    refine ⟨?_, ?_, ?_⟩ <;>
      simp [fs_exists, fs_get_info, fs_read, _fs_check_search_path, h]

/-- C8 witness: the theorem applied to the fully unconfigured state. -/
theorem C8_witness :
    fs_write ⟨[], []⟩ ⟨"", ""⟩ "n" "d" = (FS_ENOWRITEDIR, ⟨[], []⟩, []) ∧
    fs_exists ⟨[], []⟩ ⟨"", ""⟩ "n" = FS_ENOSEARCHPATH :=
  ⟨((C8_unconfigured_errors ⟨[], []⟩ "n" "d" true).1 ⟨"", ""⟩ rfl).1,
    ((C8_unconfigured_errors ⟨[], []⟩ "n" "d" true).2 ⟨"", ""⟩ rfl).1⟩

/-- C9: the claim states that every operation closes the handle it
opened on every exit path.  In fs_read, when FS_MALLOC fails after a
successful fopen, the C code returns NULL immediately without fclose:
the trace holds the open event and no close event, while the successful
run closes the handle it opened. -/
theorem C9_read_leaks_handle_on_alloc_failure :
    fs_read ⟨[("./f", "hi")], ["."]⟩ ⟨"./?", "./?"⟩ "f" false = (none, [Ev.openE "./f"]) ∧
    fs_read ⟨[("./f", "hi")], ["."]⟩ ⟨"./?", "./?"⟩ "f" true =
      (some ("hi", 2), [Ev.openE "./f", Ev.closeE "./f"]) := by
  decide

/-- C10: the setters accept any string shorter than FS_MAX_PATH with
FS_ESUCCESS and store it without validating placeholder markers, and
substituting any logical name into a marker-free template yields the
empty string as the concrete path. -/
theorem C10_no_marker_validation (st : FSState) (t name : String)
    (hlen : t.length < FS_MAX_PATH) (hq : '?' ∉ t.data) :
    (fs_set_search_path st t).1 = FS_ESUCCESS ∧
    (fs_set_search_path st t).2.searchPath = t ∧
    (fs_set_write_dir st t).1 = FS_ESUCCESS ∧
    (fs_set_write_dir st t).2.writeDir = t ∧
    _fs_concat_path t name = .ok "" := by
  have hle : ¬ FS_MAX_PATH ≤ t.length := Nat.not_le.mpr hlen
  have hmark : ∀ c ∈ t.data, c ≠ '?' := fun c hc he => hq (he ▸ hc)
  refine ⟨?_, ?_, ?_, ?_, ?_⟩
  · unfold fs_set_search_path; rw [if_neg hle]
  · unfold fs_set_search_path; rw [if_neg hle]
  · unfold fs_set_write_dir; rw [if_neg hle]
  · unfold fs_set_write_dir; rw [if_neg hle]
  · unfold _fs_concat_path _fs_concat_full
    rw [concat_no_mark_loop name.data t.data [] hmark]

/-- C10 witness: the theorem applied to the marker-free template
"nomark". -/
theorem C10_witness :
    ("nomark" : String).length < FS_MAX_PATH ∧ '?' ∉ ("nomark" : String).data ∧
    (fs_set_search_path ⟨"", ""⟩ "nomark").1 = FS_ESUCCESS ∧
    _fs_concat_path "nomark" "x" = .ok "" := by
  have h := C10_no_marker_validation ⟨"", ""⟩ "nomark" "x" (by decide) (by decide)
  exact ⟨by decide, by decide, h.1, h.2.2.2.2⟩

end FsLib
